import Mathlib

/-
  Verification development for the PayStream dashboard
  (src/projects/frontend/src/components/PayStreamDashboard.tsx).

  JavaScript number arithmetic is modelled as exact rational arithmetic
  over the rationals; amounts are in micro-units of the asset ("micro
  USDC") exactly as in the source, where the conversion constant SCALE
  turns user-facing amounts into micro-units.
-/

/-- Mirrors the constant SCALE = 1_000_000. -/
def SCALE : ℚ := 1000000

/-- Mirrors the constant QUOTE_WINDOW_MS = 30_000. -/
def QUOTE_WINDOW_MS : ℚ := 30000

/-- The currency union type of the dashboard. -/
inductive Currency
  | USDC
  | MXN
  | ARS
  | TRY
  | NGN
deriving DecidableEq

/-- The fixed rate table RATES (33.5 written as an exact rational). -/
def RATES : Currency → ℚ
  | .USDC => 1
  | .MXN => 17
  | .ARS => 1050
  | .TRY => 67 / 2
  | .NGN => 1510

/-- The Quote interface. -/
structure Quote where
  amountUsdc : ℚ
  currency : Currency
  output : ℚ
  rate : ℚ
  expiresAt : ℚ
deriving DecidableEq

/-- Mirrors quoteFor; Date.now() is passed in as the parameter now. -/
def quoteFor (amountUsdc : ℚ) (currency : Currency) (now : ℚ) : Quote :=
  let spread : ℚ := 995 / 1000
  let baseUsdc : ℚ := amountUsdc / SCALE
  let output : ℚ := if currency = .USDC then baseUsdc else baseUsdc * RATES currency * spread
  { amountUsdc := amountUsdc
    currency := currency
    output := output
    rate := RATES currency
    expiresAt := now + QUOTE_WINDOW_MS }

/-- Mirrors toUsdc: Math.round(Number(value) * SCALE). -/
def toUsdc (value : ℚ) : ℤ := round (value * SCALE)

/- ---------------- UTC calendar dates ----------------

   Schedules store dates as ISO YYYY-MM-DD strings; the source's
   nextDate builds a JS Date at UTC midnight, mutates it with
   setUTCDate(+7) or setUTCMonth(+1), and re-serialises it.  JS Date
   normalisation (ECMA-262 MakeDay) rolls an overflowing day-of-month
   forward into subsequent months, which fixDay reproduces. -/

/-- A proleptic Gregorian calendar date, year ≥ 1, month 1-12. -/
structure Date where
  y : ℕ
  m : ℕ
  d : ℕ
deriving DecidableEq

/-- Gregorian leap-year rule, as used by the JS Date object. -/
def isLeap (y : ℕ) : Bool := (y % 4 == 0 && y % 100 != 0) || y % 400 == 0

/-- Days in month m of a year with the given leap flag. -/
def daysInMonthL (leap : Bool) (m : ℕ) : ℕ :=
  match m with
  | 2 => if leap then 29 else 28
  | 4 => 30
  | 6 => 30
  | 9 => 30
  | 11 => 30
  | _ => 31

/-- Days in month m of year y. -/
def daysInMonth (y m : ℕ) : ℕ := daysInMonthL (isLeap y) m

/-- Days strictly before month m within a year with the given leap flag. -/
def monthOffset (leap : Bool) (m : ℕ) : ℕ :=
  let l : ℕ := if leap then 1 else 0
  match m with
  | 1 => 0
  | 2 => 31
  | 3 => 59 + l
  | 4 => 90 + l
  | 5 => 120 + l
  | 6 => 151 + l
  | 7 => 181 + l
  | 8 => 212 + l
  | 9 => 243 + l
  | 10 => 273 + l
  | 11 => 304 + l
  | 12 => 334 + l
  | _ => 0

/-- Number of Gregorian leap years in the interval [1, n]. -/
def leapCount (n : ℕ) : ℕ := n / 4 - n / 100 + n / 400

/-- Day count of a date (a rata-die style linearisation of the calendar):
    the number of days from 0001-01-01 to the given date. -/
def toDays (dt : Date) : ℕ :=
  365 * (dt.y - 1) + leapCount (dt.y - 1) + monthOffset (isLeap dt.y) dt.m + (dt.d - 1)

/-- Normalise an overflowing day-of-month by rolling it into following
    months, as ECMA-262 MakeDay does.  Fuel bounds the recursion; two
    units suffice for every overflow produced by the dashboard. -/
def fixDay (fuel : ℕ) (y m d : ℕ) : Date :=
  match fuel with
  | 0 => ⟨y, m, d⟩
  | f + 1 =>
    if d ≤ daysInMonth y m then ⟨y, m, d⟩
    else if m < 12 then fixDay f y (m + 1) (d - daysInMonth y m)
    else fixDay f (y + 1) 1 (d - daysInMonth y 12)

/-- d.setUTCDate(d.getUTCDate() + 7): add seven days with JS Date
    normalisation. -/
def weeklyNext (dt : Date) : Date := fixDay 2 dt.y dt.m (dt.d + 7)

/-- d.setUTCMonth(d.getUTCMonth() + 1): increment the calendar month
    keeping the day-of-month, then normalise any overflow. -/
def monthlyNext (dt : Date) : Date :=
  if dt.m = 12 then fixDay 2 (dt.y + 1) 1 dt.d else fixDay 2 dt.y (dt.m + 1) dt.d

/-- Split a character list on a separator character. -/
def splitOnChar (sep : Char) : List Char → List (List Char)
  | [] => [[]]
  | c :: cs =>
    let rest := splitOnChar sep cs
    if c = sep then [] :: rest
    else
      match rest with
      | [] => [[c]]
      | r :: rs => (c :: r) :: rs

/-- Accumulate decimal digits into a number; none on a non-digit. -/
def digitsToNatAux : List Char → ℕ → Option ℕ
  | [], acc => some acc
  | c :: cs, acc =>
    if c.isDigit then digitsToNatAux cs (acc * 10 + (c.toNat - 48)) else none

/-- Parse a non-empty all-digit character list. -/
def digitsToNat (cs : List Char) : Option ℕ :=
  if cs.isEmpty then none else digitsToNatAux cs 0

/-- Parse an ISO YYYY-MM-DD string to a calendar date, as the JS Date
    constructor does for the ISO format: only in-range calendar dates
    are accepted (an invalid string yields an Invalid Date in JS). -/
def parseDate (s : String) : Option Date :=
  match splitOnChar '-' s.data with
  | [ys, ms, ds] =>
    match digitsToNat ys, digitsToNat ms, digitsToNat ds with
    | some y, some m, some d =>
      if ys.length = 4 ∧ ms.length = 2 ∧ ds.length = 2 ∧
         1 ≤ m ∧ m ≤ 12 ∧ 1 ≤ d ∧ d ≤ daysInMonth y m then some ⟨y, m, d⟩ else none
    | _, _, _ => none
  | _ => none

/-- Two right-aligned decimal digits. -/
def pad2 (n : ℕ) : List Char :=
  [Char.ofNat (48 + n / 10 % 10), Char.ofNat (48 + n % 10)]

/-- Four right-aligned decimal digits. -/
def pad4 (n : ℕ) : List Char :=
  [Char.ofNat (48 + n / 1000 % 10), Char.ofNat (48 + n / 100 % 10),
   Char.ofNat (48 + n / 10 % 10), Char.ofNat (48 + n % 10)]

/-- Serialise a date back to YYYY-MM-DD (toISOString().slice(0, 10)). -/
def formatDate (dt : Date) : String :=
  String.mk (pad4 dt.y ++ ('-' :: pad2 dt.m) ++ ('-' :: pad2 dt.d))

/-- The cadence union type. -/
inductive Cadence
  | oneTime
  | weekly
  | monthly
deriving DecidableEq

/-- Mirrors nextDate: null for a one-time cadence, otherwise the date
    advanced by the cadence period under JS Date normalisation. -/
def nextDate (date : String) (cadence : Cadence) : Option String :=
  match cadence with
  | .oneTime => none
  | .weekly => (parseDate date).map fun dt => formatDate (weeklyNext dt)
  | .monthly => (parseDate date).map fun dt => formatDate (monthlyNext dt)

/-- JS string comparison (code-unit lexicographic) on character lists. -/
def lexLe : List Char → List Char → Bool
  | [], _ => true
  | _ :: _, [] => false
  | a :: as, b :: bs =>
    if a < b then true
    else if b < a then false
    else lexLe as bs

/-- JS string less-or-equal, as used for ISO date comparison. -/
def strLe (a b : String) : Bool := lexLe a.data b.data

/- ---------------- Data model ---------------- -/

/-- The settlement mode union type. -/
inductive Mode
  | usdHold
  | autoSwap
deriving DecidableEq

/-- The cash-out mode union type. -/
inductive CashOut
  | hold
  | instant
  | standard
deriving DecidableEq

/-- A schedule's status. -/
inductive ScheduleStatus
  | active
  | completed
deriving DecidableEq

/-- The activity record kind. -/
inductive ActivityKind
  | deposit
  | payment
  | cashout
  | schedule
deriving DecidableEq

/-- The Contractor interface.  The source field named local (a Lean
    keyword) is rendered localBal; the optional assetOptedIn flag is a
    Bool, matching its use under JS truthiness. -/
structure Contractor where
  id : String
  name : String
  email : String
  address : String
  preferred : Currency
  bankHint : String
  generated : Bool
  assetOptedIn : Bool
  usdc : ℚ
  localBal : ℚ
deriving DecidableEq

/-- The Schedule interface. -/
structure Schedule where
  id : String
  contractorId : String
  amountUsdc : ℚ
  cadence : Cadence
  mode : Mode
  nextDate : String
  status : ScheduleStatus
deriving DecidableEq

/-- The Activity interface.  The source field named at (a Lean keyword)
    is rendered atIso. -/
structure Activity where
  id : String
  kind : ActivityKind
  atIso : String
  contractorId : Option String
  txId : Option String
  round : Option ℕ
  usdc : Option ℚ
  currency : Option Currency
  output : Option ℚ
  note : String
deriving DecidableEq

/-- The slices of dashboard state mutated by payouts, scheduling and
    cash-out. -/
structure AppState where
  contractors : List Contractor
  schedules : List Schedule
  activity : List Activity
deriving DecidableEq

/- ---------------- Persistence loader ---------------- -/

/-- A JSON value, the possible result of JSON.parse. -/
inductive JVal
  | null
  | bool (b : Bool)
  | num (q : ℚ)
  | str (s : String)
  | arr (elems : List JVal)
  | obj (fields : List (String × JVal))

/-- JS property access: a named field of an object, none (undefined)
    when absent or when the value is not an object.  (Access on the
    null document is handled separately in loadPersisted, since it
    throws in JS and lands in the catch branch.) -/
def jfield (j : JVal) (k : String) : Option JVal :=
  match j with
  | .obj fields => List.lookup k fields
  | _ => none

/-- The loader's output shape: the Persisted interface with the four
    checked scalar fields decoded and the three array fields kept as
    raw JSON elements (the source casts them without validating the
    elements). -/
structure PersistedDoc where
  appId : Option ℚ
  assetId : String
  contractors : List JVal
  schedules : List JVal
  activity : List JVal
  selected : String

/-- Mirrors emptyPersisted. -/
def emptyPersisted (assetId : String) : PersistedDoc :=
  { appId := none
    assetId := assetId
    contractors := []
    schedules := []
    activity := []
    selected := "" }

/-- Mirrors loadPersisted.  raw is the stored string's parse outcome:
    none when no value is stored, some none when JSON.parse throws,
    some (some j) when it yields the JSON value j.  A null document
    makes every property access throw, reaching the catch branch. -/
def loadPersisted (raw : Option (Option JVal)) (assetId : String) : PersistedDoc :=
  match raw with
  | none => emptyPersisted assetId
  | some none => emptyPersisted assetId
  | some (some .null) => emptyPersisted assetId
  | some (some j) =>
    { appId := match jfield j ("appId") with
        | some (.num n) => some n
        | _ => none
      assetId := match jfield j ("assetId") with
        | some (.str s) => s
        | _ => assetId
      contractors := match jfield j ("contractors") with
        | some (.arr xs) => xs
        | _ => []
      schedules := match jfield j ("schedules") with
        | some (.arr xs) => xs
        | _ => []
      activity := match jfield j ("activity") with
        | some (.arr xs) => xs
        | _ => []
      selected := match jfield j ("selected") with
        | some (.str s) => s
        | _ => "" }

/- ---------------- Wallet request guard ---------------- -/

/-- The guard's mutable flags: walletRequestInFlight (the ref that
    gates admission), walletRequestBusy, walletPendingError and
    walletPendingDetail. -/
structure GuardState where
  inFlight : Bool
  busy : Bool
  pendingError : Bool
  pendingDetail : String
deriving DecidableEq

/-- True when the pattern occurs as a substring (JS includes). -/
def containsSub (s pat : String) : Bool := (s.splitOn pat).length != 1

/-- Mirrors isPendingWalletRequestError: a fixed set of lower-cased
    substring patterns identifying a wallet-already-pending failure. -/
def isPendingWalletRequestError (message : String) : Bool :=
  let normalized := message.toLower
  containsSub normalized ("transaction request pending") ||
  containsSub normalized ("another transaction request in progress") ||
  containsSub normalized ("already has a pending request") ||
  containsSub normalized ("confirmation failed(4100)") ||
  containsSub normalized ("code 4100") ||
  containsSub normalized ("request pending")

/-- Mirrors runWalletTx.  The wrapped operation fn receives the guard
    state as it stands at invocation time (so the theorems can observe
    that the guard is marked busy before fn runs).  The result is the
    operation outcome, the final guard state, and whether fn was
    invoked at all. -/
def runWalletTx (g : GuardState) (fn : GuardState → Except String α) :
    Except String α × GuardState × Bool :=
  if g.inFlight then
    (.error ("Wallet request already pending. Open Pera and approve/reject it first."),
     { g with pendingError := true }, false)
  else
    let g1 : GuardState :=
      { inFlight := true, busy := true, pendingError := false, pendingDetail := "" }
    match fn g1 with
    | .ok a =>
      (.ok a, { g1 with inFlight := false, busy := false }, true)
    | .error m =>
      if isPendingWalletRequestError m then
        (.error ("Pera already has a pending request. Use Reset Wallet Session, then reconnect Pera."),
         { inFlight := false, busy := false, pendingError := true, pendingDetail := m }, true)
      else
        (.error m, { g1 with inFlight := false, busy := false }, true)

/- ---------------- Vault balance query ---------------- -/

/-- One asset holding inside the vault's account information, whose
    asset id may arrive under either the assetId or the asset-id key,
    and whose fields may be absent. -/
structure AssetHolding where
  assetIdField : Option ℕ
  assetIdDash : Option ℕ
  amount : Option ℕ
deriving DecidableEq

/-- Number.MAX_SAFE_INTEGER, the largest exactly-representable
    integer of a JS number. -/
def maxSafeInteger : ℕ := 2 ^ 53 - 1

/-- The asset id of a holding: assetId ?? asset-id. -/
def holdingAssetId (a : AssetHolding) : Option ℕ :=
  match a.assetIdField with
  | some v => some v
  | none => a.assetIdDash

/-- The holding-selection predicate of getVaultUsdcBalance: a defined
    asset id equal to the configured one. -/
def matchesAsset (targetAssetId : ℕ) (a : AssetHolding) : Bool :=
  match holdingAssetId a with
  | some v => v == targetAssetId
  | none => false

/-- Mirrors getVaultUsdcBalance after the account-information query:
    assets is the possibly absent asset list of the vault account and
    targetAssetId the configured asset.  A missing holding or a falsy
    amount yields 0; an amount beyond MAX_SAFE_INTEGER is clamped. -/
def getVaultUsdcBalance (assets : Option (List AssetHolding)) (targetAssetId : ℕ) : ℕ :=
  let holding := (assets.getD []).find? (matchesAsset targetAssetId)
  match holding with
  | none => 0
  | some h =>
    match h.amount with
    | none => 0
    | some amt =>
      if amt = 0 then 0
      else if maxSafeInteger < amt then maxSafeInteger else amt

/- ---------------- Payout orchestration ---------------- -/

/-- The distinct failures executePayment can raise. -/
inductive PayError
  | notConnected
  | invalidAsset
  | contractorNotFound
  | insufficientVault (available required : ℚ)
  | notOptedIn (asset : ℤ)
  | payoutFailed (message : String)
deriving DecidableEq

/-- The environment executePayment reads: wallet/app wiring, the
    freshly re-queried vault balance, the per-address opt-in query
    result, and the outcome of the on-chain payout submission
    (transaction id and confirmed round on success). -/
structure PayEnv where
  appId : Option ℕ
  walletConnected : Bool
  assetIsInteger : Bool
  parsedAsset : ℤ
  vaultBalance : ℚ
  optedIn : String → Bool
  payoutResult : Except String (Option String × Option ℕ)

/-- The per-contractor update applied on payout success: the matched
    contractor is credited on the simulated local balance when the
    mode is auto_swap and the preferred currency is not USDC, and on
    the simulated asset balance otherwise; either way the contractor
    is marked opted-in. -/
def applyPayout (contractorId : String) (amountUsdc : ℚ) (mode : Mode) (out : ℚ)
    (c : Contractor) : Contractor :=
  if c.id ≠ contractorId then c
  else if mode = .autoSwap ∧ c.preferred ≠ .USDC then
    { c with localBal := c.localBal + out, assetOptedIn := true }
  else
    { c with usdc := c.usdc + amountUsdc, assetOptedIn := true }

/-- The per-schedule update applied after a successful scheduled
    payout: the targeted schedule advances its next date per cadence
    or completes when the cadence yields no next date. -/
def advanceOne (scheduleId : String) (s : Schedule) : Schedule :=
  if s.id ≠ scheduleId then s
  else
    match nextDate s.nextDate s.cadence with
    | some n => { s with nextDate := n }
    | none => { s with status := .completed }

/-- The setSchedules update of executePayment. -/
def advanceSchedules (schedules : List Schedule) (scheduleId : String) : List Schedule :=
  schedules.map (advanceOne scheduleId)

/-- Mirrors executePayment.  Returns the outcome, the resulting state
    (unchanged on failure), and whether the payout transaction was
    submitted.  newActId and nowIso stand for makeId() and the current
    ISO timestamp, quoteNow for Date.now() inside quoteFor. -/
def executePayment (env : PayEnv) (st : AppState) (contractorId : String)
    (amountUsdc : ℚ) (mode : Mode) (scheduleId : Option String)
    (newActId nowIso : String) (quoteNow : ℚ) :
    Except PayError Unit × AppState × Bool :=
  if env.appId = none ∨ ¬env.walletConnected then
    (.error .notConnected, st, false)
  else if ¬(env.assetIsInteger ∧ 0 < env.parsedAsset) then
    (.error .invalidAsset, st, false)
  else
    match st.contractors.find? (fun c => c.id == contractorId) with
    | none => (.error .contractorNotFound, st, false)
    | some contractor =>
      if env.vaultBalance < amountUsdc then
        (.error (.insufficientVault env.vaultBalance amountUsdc), st, false)
      else if ¬env.optedIn contractor.address then
        (.error (.notOptedIn env.parsedAsset), st, false)
      else
        let fxQuote := quoteFor amountUsdc
          (if mode = .autoSwap then contractor.preferred else .USDC) quoteNow
        match env.payoutResult with
        | .error m => (.error (.payoutFailed m), st, true)
        | .ok (txId, round) =>
          let contractors := st.contractors.map
            (applyPayout contractorId amountUsdc mode fxQuote.output)
          let act : Activity :=
            { id := newActId
              kind := .payment
              atIso := nowIso
              contractorId := some contractorId
              txId := txId
              round := round
              usdc := some amountUsdc
              currency := some fxQuote.currency
              output := some fxQuote.output
              note := "Employer payout executed" }
          let schedules := match scheduleId with
            | some sid => advanceSchedules st.schedules sid
            | none => st.schedules
          (.ok (), { contractors := contractors, schedules := schedules,
                     activity := act :: st.activity }, true)

/- ---------------- Schedule processing ---------------- -/

/-- Mirrors dueSchedules: the active schedules whose next date is on
    or before today, under JS string comparison of ISO dates. -/
def dueSchedules (schedules : List Schedule) (todayStr : String) : List Schedule :=
  schedules.filter fun s => s.status == .active && strLe s.nextDate todayStr

/-- The processing loop of processDue: run each due schedule through
    the payout step sequentially, threading the state; a failed item
    (none) is reported and skipped, and processing continues.  Returns
    the final state and the success count. -/
def processLoop (exec : σ → Schedule → Option σ) : σ → List Schedule → σ × ℕ
  | s, [] => (s, 0)
  | s, sch :: rest =>
    match exec s sch with
    | some s1 =>
      let r := processLoop exec s1 rest
      (r.1, r.2 + 1)
    | none => processLoop exec s rest

/-- Mirrors processDue: none when no schedule is due (early return),
    otherwise the final state, the success count and the attempted
    count reported in the closing message. -/
def processDue (schedules : List Schedule) (todayStr : String)
    (exec : σ → Schedule → Option σ) (s0 : σ) : Option (σ × ℕ × ℕ) :=
  let due := dueSchedules schedules todayStr
  if due.isEmpty then none
  else
    let r := processLoop exec s0 due
    some (r.1, r.2, due.length)

/- ---------------- Cash-out simulator ---------------- -/

/-- Mirrors runCashOut.  cashAmount is the numeric content of the
    amount input (Number(cashAmount)); bankAccount the bank reference
    input.  Returns the outcome message and the resulting state,
    unchanged on every failure path. -/
def runCashOut (st : AppState) (selected : String) (cashMode : CashOut)
    (cashAmount : ℚ) (bankAccount : String) (newActId nowIso : String)
    (quoteNow : ℚ) : Except String Unit × AppState :=
  match st.contractors.find? (fun c => c.id == selected) with
  | none => (.error ("Select contractor first"), st)
  | some selectedContractor =>
    match cashMode with
    | .hold =>
      let act : Activity :=
        { id := newActId
          kind := .cashout
          atIso := nowIso
          contractorId := some selectedContractor.id
          txId := none
          round := none
          usdc := none
          currency := none
          output := none
          note := "Contractor selected Hold mode" }
      (.ok (), { st with activity := act :: st.activity })
    | .instant =>
      let amount : ℚ := (toUsdc cashAmount : ℤ)
      if amount = 0 ∨ amount ≤ 0 then (.error ("Invalid USDC amount"), st)
      else if selectedContractor.usdc < amount then
        (.error ("Insufficient USDC balance"), st)
      else
        let fxQuote := quoteFor amount selectedContractor.preferred quoteNow
        let contractors := st.contractors.map fun c =>
          if c.id == selectedContractor.id then
            { c with usdc := c.usdc - amount, localBal := c.localBal + fxQuote.output }
          else c
        let act : Activity :=
          { id := newActId
            kind := .cashout
            atIso := nowIso
            contractorId := some selectedContractor.id
            txId := none
            round := none
            usdc := some amount
            currency := some fxQuote.currency
            output := some fxQuote.output
            note := "Instant swap cash-out" }
        (.ok (), { st with contractors := contractors, activity := act :: st.activity })
    | .standard =>
      let localAmt : ℚ := cashAmount
      if localAmt = 0 ∨ localAmt ≤ 0 then (.error ("Invalid local amount"), st)
      else if selectedContractor.localBal < localAmt then
        (.error ("Insufficient local stable balance"), st)
      else if bankAccount.trim = "" then (.error ("Enter bank account"), st)
      else
        let contractors := st.contractors.map fun c =>
          if c.id == selectedContractor.id then
            { c with localBal := c.localBal - localAmt }
          else c
        let act : Activity :=
          { id := newActId
            kind := .cashout
            atIso := nowIso
            contractorId := some selectedContractor.id
            txId := none
            round := none
            usdc := none
            currency := some selectedContractor.preferred
            output := some localAmt
            note := "Standard transfer initiated" }
        (.ok (), { st with contractors := contractors, activity := act :: st.activity })

/- ---------------- Calendar lemmas ---------------- -/

/-- A date whose components are in calendar range (year at least 1). -/
def validDate (dt : Date) : Prop :=
  1 ≤ dt.y ∧ 1 ≤ dt.m ∧ dt.m ≤ 12 ∧ 1 ≤ dt.d ∧ dt.d ≤ daysInMonth dt.y dt.m

theorem daysInMonthL_ge (leap : Bool) (m : ℕ) : 28 ≤ daysInMonthL leap m := by
  unfold daysInMonthL
  split <;> cases leap <;> simp

theorem daysInMonthL_le (leap : Bool) (m : ℕ) : daysInMonthL leap m ≤ 31 := by
  unfold daysInMonthL
  split <;> cases leap <;> simp

theorem monthOffset_step (leap : Bool) (m : ℕ) (h1 : 1 ≤ m) (h2 : m ≤ 11) :
    monthOffset leap (m + 1) = monthOffset leap m + daysInMonthL leap m := by
  interval_cases m <;> cases leap <;> decide

theorem monthOffset_one (leap : Bool) : monthOffset leap 1 = 0 := by
  cases leap <;> rfl

theorem monthOffset_twelve (leap : Bool) :
    monthOffset leap 12 = 334 + (if leap then 1 else 0) := by
  cases leap <;> rfl

theorem leapCount_step (k : ℕ) :
    leapCount (k + 1) = leapCount k + (if isLeap (k + 1) then 1 else 0) := by
  have h : (isLeap (k + 1) = true) ↔
      (((k + 1) % 4 = 0 ∧ ¬(k + 1) % 100 = 0) ∨ (k + 1) % 400 = 0) := by
    simp [isLeap]
  by_cases hp : ((k + 1) % 4 = 0 ∧ ¬(k + 1) % 100 = 0) ∨ (k + 1) % 400 = 0
  · rw [if_pos (h.mpr hp)]
    unfold leapCount
    omega
  · have hb : isLeap (k + 1) = false := by
      cases hx : isLeap (k + 1)
      · rfl
      · exact absurd (h.mp hx) hp
    rw [hb]
    simp only [Bool.false_eq_true, if_false]
    unfold leapCount
    push_neg at hp
    omega

theorem toDays_weeklyNext (dt : Date) (h : validDate dt) :
    toDays (weeklyNext dt) = toDays dt + 7 := by
  obtain ⟨y, m, d⟩ := dt
  obtain ⟨hy, hm1, hm2, hd1, hd2⟩ := h
  simp only at hy hm1 hm2 hd1 hd2
  unfold weeklyNext
  simp only
  by_cases hfit : d + 7 ≤ daysInMonth y m
  · have hfx : fixDay 2 y m (d + 7) = ⟨y, m, d + 7⟩ := by
      unfold fixDay
      rw [if_pos hfit]
    rw [hfx]
    unfold toDays
    simp only
    omega
  · push_neg at hfit
    by_cases hm12 : m < 12
    · have hd7 : d + 7 - daysInMonth y m ≤ daysInMonth y (m + 1) := by
        have g1 := daysInMonthL_ge (isLeap y) (m + 1)
        unfold daysInMonth
        unfold daysInMonth at hd2
        omega
      have hfx : fixDay 2 y m (d + 7) = ⟨y, m + 1, d + 7 - daysInMonth y m⟩ := by
        unfold fixDay
        rw [if_neg (by omega), if_pos hm12]
        unfold fixDay
        rw [if_pos hd7]
      rw [hfx]
      have hmo := monthOffset_step (isLeap y) m hm1 (by omega)
      unfold toDays daysInMonth at *
      simp only
      omega
    · have hm : m = 12 := by omega
      subst hm
      have hdim : daysInMonth y 12 = 31 := by
        unfold daysInMonth daysInMonthL
        rfl
      have hone : daysInMonth (y + 1) 1 = 31 := by
        unfold daysInMonth daysInMonthL
        rfl
      have hfx : fixDay 2 y 12 (d + 7) = ⟨y + 1, 1, d + 7 - 31⟩ := by
        unfold fixDay
        rw [if_neg (by omega), if_neg (by omega)]
        unfold fixDay
        rw [hdim, if_pos (by omega)]
      rw [hfx]
      obtain ⟨k, rfl⟩ : ∃ k, y = k + 1 := ⟨y - 1, by omega⟩
      have hlc := leapCount_step k
      have hmo12 := monthOffset_twelve (isLeap (k + 1))
      unfold toDays
      simp only [monthOffset_one, Nat.add_sub_cancel]
      rw [hdim] at hd2
      cases hb : isLeap (k + 1) <;>
        simp only [hb, Bool.false_eq_true, if_false, if_true] at hlc hmo12 <;>
        omega

theorem parseDate_bounds (s : String) (dt : Date) (h : parseDate s = some dt) :
    1 ≤ dt.m ∧ dt.m ≤ 12 ∧ 1 ≤ dt.d ∧ dt.d ≤ daysInMonth dt.y dt.m := by
  unfold parseDate at h
  split at h
  · split at h
    · split at h
      · rename_i hcond
        injection h with h
        subst h
        simp only
        exact ⟨hcond.2.2.2.1, hcond.2.2.2.2.1, hcond.2.2.2.2.2.1, hcond.2.2.2.2.2.2⟩
      · exact absurd h (by simp)
    all_goals exact absurd h (by simp)
  · exact absurd h (by simp)

/- ---------------- C1: quote engine ---------------- -/

/-- C1: For every positive amount a and every non-native currency c in
    the rate table, the quote engine returns output a * rate[c] * 0.995,
    and for the native currency USDC it returns the amount unchanged.
    The engine's parameter is denominated in micro-units (its call
    sites pass toUsdc(...)), so an amount of a USDC enters as a * SCALE. -/
theorem c1_quote_engine (a : ℚ) (ha : 0 < a) (now : ℚ) :
    (∀ c : Currency, c ≠ .USDC →
      (quoteFor (a * SCALE) c now).output = a * RATES c * (995 / 1000)) ∧
    (quoteFor (a * SCALE) .USDC now).output = a := by
  have hS : (SCALE : ℚ) ≠ 0 := by norm_num [SCALE]
  constructor
  · intro c hc
    simp only [quoteFor, if_neg hc]
    rw [mul_div_assoc, div_self hS, mul_one]
  · simp only [quoteFor, if_pos rfl, if_true, eq_self_iff_true]
    rw [mul_div_assoc, div_self hS, mul_one]

/-- Witness for C1 at a = 200 and c = MXN: 200 * 17 * 0.995 = 3383. -/
theorem c1_quote_engine_witness :
    (0 : ℚ) < 200 ∧
    (quoteFor (200 * SCALE) Currency.MXN 0).output = 3383 ∧
    (quoteFor (200 * SCALE) Currency.USDC 0).output = 200 := by
  have h := c1_quote_engine 200 (by norm_num) 0
  refine ⟨by norm_num, ?_, h.2⟩
  rw [h.1 Currency.MXN (by decide)]
  norm_num [RATES]

/- ---------------- C4: wallet request guard ---------------- -/

/-- C4: The guard rejects (with the request-already-pending error,
    without invoking the operation) every call made while another
    guarded operation is in flight; an accepted call invokes the
    operation with the guard already marked busy/in-flight, the
    operation's success value is returned, and the in-flight and busy
    flags are cleared on every exit path (success and failure alike),
    so that a new call made after any settlement is accepted. -/
theorem c4_wallet_guard (g : GuardState) (fn fn2 : GuardState → Except String α) :
    (g.inFlight = true →
      runWalletTx g fn =
        (.error ("Wallet request already pending. Open Pera and approve/reject it first."),
         { g with pendingError := true }, false)) ∧
    (g.inFlight = false →
      (runWalletTx g fn).2.2 = true ∧
      (∀ a, fn { inFlight := true, busy := true, pendingError := false, pendingDetail := "" } =
            .ok a → (runWalletTx g fn).1 = .ok a) ∧
      (runWalletTx g fn).2.1.inFlight = false ∧
      (runWalletTx g fn).2.1.busy = false ∧
      (runWalletTx (runWalletTx g fn).2.1 fn2).2.2 = true) := by
  have hacc : ∀ (g3 : GuardState) (fn3 : GuardState → Except String α),
      g3.inFlight = false →
      (runWalletTx g3 fn3).2.2 = true ∧
      (runWalletTx g3 fn3).2.1.inFlight = false ∧
      (runWalletTx g3 fn3).2.1.busy = false := by
    intro g3 fn3 h3
    simp only [runWalletTx, h3, Bool.false_eq_true, if_false]
    cases hf : fn3 { inFlight := true, busy := true, pendingError := false,
                     pendingDetail := "" } with
    | ok a => simp
    | error m => by_cases hm : isPendingWalletRequestError m <;> simp [hm]
  constructor
  · intro h
    simp only [runWalletTx, h, if_true]
  · intro h
    obtain ⟨h1, h2, h3⟩ := hacc g fn h
    refine ⟨h1, ?_, h2, h3, (hacc _ fn2 h2).1⟩
    intro a hfa
    simp only [runWalletTx, h, Bool.false_eq_true, if_false, hfa]

/-- Witness for C4: from the idle guard, a successful operation is
    invoked, returns its value, and leaves the guard idle again. -/
theorem c4_wallet_guard_witness :
    (⟨false, false, false, ""⟩ : GuardState).inFlight = false ∧
    (runWalletTx (⟨false, false, false, ""⟩ : GuardState)
      (fun _ => Except.ok (3 : ℕ))).2.2 = true ∧
    (runWalletTx (⟨false, false, false, ""⟩ : GuardState)
      (fun _ => Except.ok (3 : ℕ))).1 = Except.ok 3 ∧
    (runWalletTx (⟨false, false, false, ""⟩ : GuardState)
      (fun _ => Except.ok (3 : ℕ))).2.1.inFlight = false := by
  have h := (c4_wallet_guard (⟨false, false, false, ""⟩ : GuardState)
    (fun _ => Except.ok (3 : ℕ)) (fun _ => Except.ok (3 : ℕ))).2 rfl
  exact ⟨rfl, h.1, h.2.1 3 rfl, h.2.2.1⟩

/- ---------------- C9: vault balance extraction ---------------- -/

/-- C9: The extracted holding of the configured asset is zero when the
    vault does not hold it (no asset list, or no entry whose asset id
    matches), and an amount exceeding Number.MAX_SAFE_INTEGER is
    clamped to that maximum; an in-range amount is returned exactly. -/
theorem c9_vault_balance (assets : List AssetHolding) (target : ℕ) :
    (getVaultUsdcBalance none target = 0) ∧
    (assets.find? (matchesAsset target) = none →
      getVaultUsdcBalance (some assets) target = 0) ∧
    (∀ h amt, assets.find? (matchesAsset target) = some h → h.amount = some amt →
      maxSafeInteger < amt →
      getVaultUsdcBalance (some assets) target = maxSafeInteger) ∧
    (∀ h amt, assets.find? (matchesAsset target) = some h → h.amount = some amt →
      0 < amt → amt ≤ maxSafeInteger →
      getVaultUsdcBalance (some assets) target = amt) := by
  refine ⟨rfl, ?_, ?_, ?_⟩
  · intro hnone
    simp only [getVaultUsdcBalance, Option.getD, hnone]
  · intro h amt hf ha hbig
    simp only [getVaultUsdcBalance, Option.getD, hf, ha]
    rw [if_neg (by omega), if_pos hbig]
  · intro h amt hf ha hpos hle
    simp only [getVaultUsdcBalance, Option.getD, hf, ha]
    rw [if_neg (by omega), if_neg (by omega)]

/-- Witness for C9: a held amount of 2^53 is clamped to 2^53 - 1, and
    an unheld asset reads as zero. -/
theorem c9_vault_balance_witness :
    getVaultUsdcBalance
      (some [⟨some 7, none, some (2 ^ 53)⟩]) 7 = maxSafeInteger ∧
    getVaultUsdcBalance (some [⟨some 7, none, some (2 ^ 53)⟩]) 8 = 0 := by
  constructor
  · exact (c9_vault_balance [⟨some 7, none, some (2 ^ 53)⟩] 7).2.2.1
      ⟨some 7, none, some (2 ^ 53)⟩ (2 ^ 53) (by decide) rfl (by norm_num [maxSafeInteger])
  · exact (c9_vault_balance [⟨some 7, none, some (2 ^ 53)⟩] 8).2.1 (by decide)

/- ---------------- C6: persistence loader ---------------- -/

/-- C6: The loader degrades field-by-field: a stored field of the
    wrong shape (contractors/schedules/activity not an array, appId
    not a number, assetId/selected not a string) is replaced by its
    documented default while every well-shaped sibling is preserved;
    a missing or unparseable document (including the null document,
    whose property accesses throw) yields the empty default snapshot. -/
theorem c6_load_persisted (fields : List (String × JVal)) (aid : String) :
    (∀ v, List.lookup ("contractors") fields = some v → (∀ xs, v ≠ .arr xs) →
      (loadPersisted (some (some (.obj fields))) aid).contractors = []) ∧
    (∀ v, List.lookup ("appId") fields = some v → (∀ n, v ≠ .num n) →
      (loadPersisted (some (some (.obj fields))) aid).appId = none) ∧
    (∀ v, List.lookup ("selected") fields = some v → (∀ s, v ≠ .str s) →
      (loadPersisted (some (some (.obj fields))) aid).selected = "") ∧
    (∀ v, List.lookup ("assetId") fields = some v → (∀ s, v ≠ .str s) →
      (loadPersisted (some (some (.obj fields))) aid).assetId = aid) ∧
    (∀ n, List.lookup ("appId") fields = some (.num n) →
      (loadPersisted (some (some (.obj fields))) aid).appId = some n) ∧
    (∀ s, List.lookup ("assetId") fields = some (.str s) →
      (loadPersisted (some (some (.obj fields))) aid).assetId = s) ∧
    (∀ xs, List.lookup ("contractors") fields = some (.arr xs) →
      (loadPersisted (some (some (.obj fields))) aid).contractors = xs) ∧
    (∀ xs, List.lookup ("schedules") fields = some (.arr xs) →
      (loadPersisted (some (some (.obj fields))) aid).schedules = xs) ∧
    (∀ xs, List.lookup ("activity") fields = some (.arr xs) →
      (loadPersisted (some (some (.obj fields))) aid).activity = xs) ∧
    (∀ s, List.lookup ("selected") fields = some (.str s) →
      (loadPersisted (some (some (.obj fields))) aid).selected = s) ∧
    loadPersisted none aid = emptyPersisted aid ∧
    loadPersisted (some none) aid = emptyPersisted aid ∧
    loadPersisted (some (some .null)) aid = emptyPersisted aid := by
  refine ⟨?_, ?_, ?_, ?_, ?_, ?_, ?_, ?_, ?_, ?_, rfl, rfl, rfl⟩ <;>
    intro v hv <;>
    first
      | (intro hnot
         simp only [loadPersisted, jfield, hv]
         cases v <;> simp_all)
      | simp only [loadPersisted, jfield, hv]

/-- Witness for C6: a document whose contractors field is a number
    degrades that field to the empty list while the numeric appId and
    string selected siblings are preserved. -/
theorem c6_load_persisted_witness :
    (loadPersisted (some (some (.obj
      [(("appId"), .num 7), (("contractors"), .num 5), (("selected"), .str ("x"))])))
      ("A")).contractors = [] ∧
    (loadPersisted (some (some (.obj
      [(("appId"), .num 7), (("contractors"), .num 5), (("selected"), .str ("x"))])))
      ("A")).appId = some 7 ∧
    (loadPersisted (some (some (.obj
      [(("appId"), .num 7), (("contractors"), .num 5), (("selected"), .str ("x"))])))
      ("A")).selected = ("x") ∧
    (loadPersisted (some (some (.obj
      [(("appId"), .num 7), (("contractors"), .num 5), (("selected"), .str ("x"))])))
      ("A")).assetId = ("A") := by
  have h := c6_load_persisted
    [(("appId"), .num 7), (("contractors"), .num 5), (("selected"), .str ("x"))] ("A")
  refine ⟨h.1 (.num 5) rfl (by intro xs hx; cases hx), ?_, ?_, ?_⟩
  · exact h.2.2.2.2.1 7 rfl
  · exact h.2.2.2.2.2.2.2.2.2.1 ("x") rfl
  · rfl

/- ---------------- C5: due-schedule processing ---------------- -/

/-- The processing loop with a state-independent per-item outcome
    counts exactly the successful items, visiting every item in the
    list (a failure never halts the remaining items). -/
theorem processLoop_countP (p : Schedule → Bool) (l : List Schedule) (u : Unit) :
    processLoop (fun (_ : Unit) s => if p s then some () else none) u l =
      ((), l.countP p) := by
  induction l with
  | nil => rfl
  | cons a t ih =>
    unfold processLoop
    by_cases hp : p a <;> simp [hp, ih, List.countP_cons]

/-- C5: processDue attempts exactly the active schedules whose next
    due date is lexicographically on or before today, processes them
    sequentially, continues past failed items, and reports the success
    count out of the attempted count. -/
theorem c5_process_due (schedules : List Schedule) (todayStr : String) :
    (∀ s, s ∈ dueSchedules schedules todayStr ↔
      s ∈ schedules ∧ s.status = .active ∧ strLe s.nextDate todayStr = true) ∧
    (∀ p : Schedule → Bool, dueSchedules schedules todayStr ≠ [] →
      processDue schedules todayStr
          (fun (_ : Unit) s => if p s then some () else none) () =
        some ((), (dueSchedules schedules todayStr).countP p,
              (dueSchedules schedules todayStr).length)) := by
  constructor
  · intro s
    simp [dueSchedules, List.mem_filter, Bool.and_eq_true, beq_iff_eq, and_assoc]
  · intro p hne
    unfold processDue
    rw [if_neg (by simpa [List.isEmpty_iff] using hne)]
    rw [processLoop_countP]

/-- Witness for C5, the 2-out-of-3 scenario: three due schedules where
    the second one's payout fails still attempts all three and reports
    2 successes out of 3. -/
theorem c5_process_due_witness :
    processDue
      [⟨("s1"), ("c1"), 100, .weekly, .autoSwap, ("2025-01-01"), .active⟩,
       ⟨("s2"), ("c1"), 100, .weekly, .autoSwap, ("2025-01-01"), .active⟩,
       ⟨("s3"), ("c1"), 100, .weekly, .autoSwap, ("2025-01-01"), .active⟩]
      ("2025-06-01")
      (fun (_ : Unit) s => if s.id != ("s2") then some () else none) () =
      some ((), 2, 3) := by
  have h := (c5_process_due
    [⟨("s1"), ("c1"), 100, .weekly, .autoSwap, ("2025-01-01"), .active⟩,
     ⟨("s2"), ("c1"), 100, .weekly, .autoSwap, ("2025-01-01"), .active⟩,
     ⟨("s3"), ("c1"), 100, .weekly, .autoSwap, ("2025-01-01"), .active⟩]
    ("2025-06-01")).2 (fun s => s.id != ("s2")) (by decide)
  rw [h]
  decide

/- ---------------- C3: payout preconditions ---------------- -/

/-- C3: With the wiring checks satisfied and the contractor known,
    executePayment checks the freshly re-queried vault balance first
    and the contractor's opt-in second, each failure carrying its own
    distinct error; on either precondition failure nothing is
    submitted and the state (contractors, schedules, activity) is
    returned unchanged. -/
theorem c3_payout_preconditions (env : PayEnv) (st : AppState) (cid : String)
    (amount : ℚ) (mode : Mode) (sid : Option String) (aid iso : String) (qn : ℚ)
    (c : Contractor)
    (happ : env.appId ≠ none) (hw : env.walletConnected = true)
    (hai : env.assetIsInteger = true) (hpa : 0 < env.parsedAsset)
    (hc : st.contractors.find? (fun x => x.id == cid) = some c) :
    (env.vaultBalance < amount →
      executePayment env st cid amount mode sid aid iso qn =
        (.error (.insufficientVault env.vaultBalance amount), st, false)) ∧
    (amount ≤ env.vaultBalance → env.optedIn c.address = false →
      executePayment env st cid amount mode sid aid iso qn =
        (.error (.notOptedIn env.parsedAsset), st, false)) ∧
    (∀ a r t, PayError.insufficientVault a r ≠ PayError.notOptedIn t) := by
  have h1 : ¬(env.appId = none ∨ ¬env.walletConnected = true) := by
    push_neg
    exact ⟨happ, by simp [hw]⟩
  have h2 : ¬¬(env.assetIsInteger = true ∧ 0 < env.parsedAsset) :=
    not_not_intro ⟨hai, hpa⟩
  refine ⟨?_, ?_, fun a r t h => by cases h⟩
  · intro hlt
    simp only [executePayment, if_neg h1, if_neg h2, hc]
    rw [if_pos hlt]
  · intro hge hopt
    simp only [executePayment, if_neg h1, if_neg h2, hc]
    rw [if_neg (by simp [not_lt, hge]), if_pos (by simp [hopt])]

/-- Witness for C3: a concrete payout of 300 micro-units against a
    vault holding 200 fails with the insufficient-vault error, submits
    nothing and leaves the state unchanged. -/
theorem c3_payout_preconditions_witness :
    executePayment
      ⟨some 1, true, true, 7, 200, fun _ => false, .ok (none, none)⟩
      ⟨[⟨("c1"), ("n"), ("e"), ("addr"), .MXN, (""), false, false, 0, 0⟩], [], []⟩
      ("c1") 300 .autoSwap none ("a1") ("t") 0 =
      (.error (.insufficientVault 200 300),
       ⟨[⟨("c1"), ("n"), ("e"), ("addr"), .MXN, (""), false, false, 0, 0⟩], [], []⟩,
       false) := by
  have h := (c3_payout_preconditions
    ⟨some 1, true, true, 7, 200, fun _ => false, .ok (none, none)⟩
    ⟨[⟨("c1"), ("n"), ("e"), ("addr"), .MXN, (""), false, false, 0, 0⟩], [], []⟩
    ("c1") 300 .autoSwap none ("a1") ("t") 0
    ⟨("c1"), ("n"), ("e"), ("addr"), .MXN, (""), false, false, 0, 0⟩
    (by simp) rfl rfl (by norm_num) rfl).1 (by norm_num)
  exact h

/- ---------------- C2: payout state update ---------------- -/

/-- C2 (amended): On a successful payout the quote is computed in the
    contractor's preferred currency for auto-convert (and in USDC for
    hold-in-asset); the quote output is added to the contractor's
    simulated local balance only when the mode is auto-convert and the
    preferred currency is not the native asset — otherwise (hold mode,
    or auto-convert with native preferred currency) the amount is added
    to the simulated asset balance; in all cases the contractor is
    marked opted-in, exactly one payment activity record is appended,
    all other contractors are unchanged, and a direct payment leaves
    the schedules untouched. -/
theorem c2_payout_state_update (env : PayEnv) (st : AppState) (cid : String)
    (amount : ℚ) (mode : Mode) (sid : Option String) (aid iso : String) (qn : ℚ)
    (c : Contractor) (txr : Option String × Option ℕ)
    (happ : env.appId ≠ none) (hw : env.walletConnected = true)
    (hai : env.assetIsInteger = true) (hpa : 0 < env.parsedAsset)
    (hc : st.contractors.find? (fun x => x.id == cid) = some c)
    (hbal : amount ≤ env.vaultBalance)
    (hopt : env.optedIn c.address = true)
    (hpo : env.payoutResult = .ok txr) :
    (executePayment env st cid amount mode sid aid iso qn).1 = .ok () ∧
    (executePayment env st cid amount mode sid aid iso qn).2.2 = true ∧
    (∃ act : Activity,
      (executePayment env st cid amount mode sid aid iso qn).2.1.activity =
        act :: st.activity ∧
      act.kind = .payment ∧ act.contractorId = some cid ∧
      act.currency = some (if mode = .autoSwap then c.preferred else .USDC) ∧
      act.output = some (quoteFor amount
        (if mode = .autoSwap then c.preferred else .USDC) qn).output) ∧
    (∀ x ∈ st.contractors, x.id ≠ cid →
      x ∈ (executePayment env st cid amount mode sid aid iso qn).2.1.contractors) ∧
    (∀ x ∈ st.contractors, x.id = cid → mode = .autoSwap → x.preferred ≠ .USDC →
      { x with localBal := x.localBal + (quoteFor amount c.preferred qn).output,
               assetOptedIn := true } ∈
        (executePayment env st cid amount mode sid aid iso qn).2.1.contractors) ∧
    (∀ x ∈ st.contractors, x.id = cid → (mode = .usdHold ∨ x.preferred = .USDC) →
      { x with usdc := x.usdc + amount, assetOptedIn := true } ∈
        (executePayment env st cid amount mode sid aid iso qn).2.1.contractors) ∧
    (sid = none →
      (executePayment env st cid amount mode sid aid iso qn).2.1.schedules =
        st.schedules) := by
  obtain ⟨tx, rd⟩ := txr
  have h1 : ¬(env.appId = none ∨ ¬env.walletConnected = true) := by
    push_neg
    exact ⟨happ, by simp [hw]⟩
  have h2 : ¬¬(env.assetIsInteger = true ∧ 0 < env.parsedAsset) :=
    not_not_intro ⟨hai, hpa⟩
  have hred : executePayment env st cid amount mode sid aid iso qn =
      (.ok (),
       { contractors := st.contractors.map (applyPayout cid amount mode
           (quoteFor amount (if mode = .autoSwap then c.preferred else .USDC) qn).output)
         schedules := match sid with
           | some s => advanceSchedules st.schedules s
           | none => st.schedules
         activity :=
           { id := aid
             kind := .payment
             atIso := iso
             contractorId := some cid
             txId := tx
             round := rd
             usdc := some amount
             currency := some (quoteFor amount
               (if mode = .autoSwap then c.preferred else .USDC) qn).currency
             output := some (quoteFor amount
               (if mode = .autoSwap then c.preferred else .USDC) qn).output
             note := "Employer payout executed" } :: st.activity },
       true) := by
    simp only [executePayment, if_neg h1, if_neg h2, hc]
    rw [if_neg (not_lt.mpr hbal), if_neg (by simp [hopt]), hpo]
  refine ⟨by rw [hred], by rw [hred], ⟨_, by rw [hred], rfl, rfl, ?_, rfl⟩, ?_, ?_, ?_, ?_⟩
  · simp [quoteFor]
  · intro x hx hxid
    rw [hred]
    have hfix : applyPayout cid amount mode
        (quoteFor amount (if mode = .autoSwap then c.preferred else .USDC) qn).output x = x := by
      simp [applyPayout, hxid]
    exact hfix ▸ List.mem_map_of_mem _ hx
  · intro x hx hxid hmode hpref
    subst hmode
    rw [hred]
    refine List.mem_map.mpr ⟨x, hx, ?_⟩
    simp [applyPayout, hxid, hpref]
  · intro x hx hxid hcase
    rw [hred]
    refine List.mem_map.mpr ⟨x, hx, ?_⟩
    rcases hcase with hm | hp
    · subst hm
      simp [applyPayout, hxid]
    · simp [applyPayout, hxid, hp]
  · intro hsid
    subst hsid
    rw [hred]

/-- Counterexample to C2 as stated: a successful auto-convert payout
    to a contractor whose preferred currency is the native asset USDC
    leaves the simulated local-currency balance at 0 instead of adding
    the quote output 500 to it (the asset balance is credited instead). -/
theorem c2_counterexample :
    (executePayment
      ⟨some 1, true, true, 7, 1000000000, fun _ => true, .ok (none, none)⟩
      ⟨[⟨("c1"), ("n"), ("e"), ("addr"), .USDC, (""), false, false, 0, 0⟩], [], []⟩
      ("c1") (500 * SCALE) .autoSwap none ("a1") ("t") 0).1 = .ok () ∧
    (executePayment
      ⟨some 1, true, true, 7, 1000000000, fun _ => true, .ok (none, none)⟩
      ⟨[⟨("c1"), ("n"), ("e"), ("addr"), .USDC, (""), false, false, 0, 0⟩], [], []⟩
      ("c1") (500 * SCALE) .autoSwap none ("a1") ("t") 0).2.1.contractors.map
        (fun x => x.localBal) = [0] ∧
    (quoteFor (500 * SCALE) Currency.USDC 0).output = 500 ∧
    ((0 : ℚ) + (quoteFor (500 * SCALE) Currency.USDC 0).output ≠ 0) := by
  have hq : (quoteFor (500 * SCALE) Currency.USDC 0).output = 500 := by
    norm_num [quoteFor, SCALE]
  refine ⟨?_, ?_, hq, by rw [hq]; norm_num⟩
  · norm_num [executePayment, SCALE, Option.some_ne_none]
  · norm_num [executePayment, applyPayout, SCALE, Option.some_ne_none]

/-- Witness for the amended C2: a successful auto-convert payout of
    500 USDCa to an MXN-preferring contractor credits the simulated
    local balance with the quote output 500 * 17 * 0.995 = 8457.5. -/
theorem c2_payout_state_update_witness :
    (executePayment
      ⟨some 1, true, true, 7, 1000000000, fun _ => true, .ok (none, none)⟩
      ⟨[⟨("c1"), ("n"), ("e"), ("addr"), .MXN, (""), false, false, 0, 0⟩], [], []⟩
      ("c1") 500000000 .autoSwap none ("a1") ("t") 0).1 = .ok () ∧
    (⟨("c1"), ("n"), ("e"), ("addr"), .MXN, (""), false, true, 0, 16915 / 2⟩ : Contractor) ∈
      (executePayment
        ⟨some 1, true, true, 7, 1000000000, fun _ => true, .ok (none, none)⟩
        ⟨[⟨("c1"), ("n"), ("e"), ("addr"), .MXN, (""), false, false, 0, 0⟩], [], []⟩
        ("c1") 500000000 .autoSwap none ("a1") ("t") 0).2.1.contractors := by
  have h := c2_payout_state_update
    ⟨some 1, true, true, 7, 1000000000, fun _ => true, .ok (none, none)⟩
    ⟨[⟨("c1"), ("n"), ("e"), ("addr"), .MXN, (""), false, false, 0, 0⟩], [], []⟩
    ("c1") 500000000 .autoSwap none ("a1") ("t") 0
    ⟨("c1"), ("n"), ("e"), ("addr"), .MXN, (""), false, false, 0, 0⟩ (none, none)
    (by simp) rfl rfl (by norm_num) rfl (by norm_num) rfl rfl
  refine ⟨h.1, ?_⟩
  have hm := h.2.2.2.2.1
    ⟨("c1"), ("n"), ("e"), ("addr"), .MXN, (""), false, false, 0, 0⟩
    (by simp) rfl rfl (by decide)
  convert hm using 2
  norm_num [quoteFor, SCALE, RATES]
  rw [if_neg (show Currency.MXN ≠ Currency.USDC by decide)]

/- ---------------- C7: schedule advancement after a pass ---------------- -/

/-- C7: After one successful processing pass, a one-time schedule
    becomes completed, a weekly schedule stays active with its next
    due date advanced by exactly 7 calendar days (measured with the
    day-count linearisation toDays), and schedules not targeted by the
    pass are unchanged. -/
theorem c7_schedule_advance (schedules : List Schedule) (sid : String) (s : Schedule)
    (hs : s ∈ schedules) (hact : s.status = .active) :
    (s.id ≠ sid → advanceOne sid s = s ∧ s ∈ advanceSchedules schedules sid) ∧
    (s.id = sid → s.cadence = .oneTime →
      advanceOne sid s = { s with status := .completed }) ∧
    (∀ dt : Date, s.id = sid → s.cadence = .weekly → parseDate s.nextDate = some dt →
      1 ≤ dt.y →
      (advanceOne sid s).status = .active ∧
      (advanceOne sid s).nextDate = formatDate (weeklyNext dt) ∧
      toDays (weeklyNext dt) = toDays dt + 7 ∧
      advanceOne sid s ∈ advanceSchedules schedules sid) := by
  refine ⟨?_, ?_, ?_⟩
  · intro hne
    have h : advanceOne sid s = s := by
      simp [advanceOne, hne]
    exact ⟨h, h ▸ List.mem_map_of_mem _ hs⟩
  · intro hid hcad
    simp [advanceOne, hid, nextDate, hcad]
  · intro dt hid hcad hparse hy
    have hb := parseDate_bounds s.nextDate dt hparse
    have hadv : advanceOne sid s = { s with nextDate := formatDate (weeklyNext dt) } := by
      simp [advanceOne, hid, nextDate, hcad, hparse]
    refine ⟨by rw [hadv]; exact hact, by rw [hadv], ?_, hadv ▸ List.mem_map_of_mem _ hs⟩
    exact toDays_weeklyNext dt ⟨hy, hb.1, hb.2.1, hb.2.2.1, hb.2.2.2⟩

/-- Witness for C7: a one-time schedule completes, and a weekly
    schedule due 2025-02-26 advances to 2025-03-05 (7 days later)
    while staying active. -/
theorem c7_schedule_advance_witness :
    advanceOne ("s1")
      ⟨("s1"), ("c1"), 100, .oneTime, .autoSwap, ("2025-02-26"), .active⟩ =
      ⟨("s1"), ("c1"), 100, .oneTime, .autoSwap, ("2025-02-26"), .completed⟩ ∧
    (advanceOne ("s2")
      ⟨("s2"), ("c1"), 100, .weekly, .autoSwap, ("2025-02-26"), .active⟩).status = .active ∧
    (advanceOne ("s2")
      ⟨("s2"), ("c1"), 100, .weekly, .autoSwap, ("2025-02-26"), .active⟩).nextDate =
      ("2025-03-05") ∧
    toDays (weeklyNext ⟨2025, 2, 26⟩) = toDays ⟨2025, 2, 26⟩ + 7 := by
  have h1 := (c7_schedule_advance
    [⟨("s1"), ("c1"), 100, .oneTime, .autoSwap, ("2025-02-26"), .active⟩] ("s1")
    ⟨("s1"), ("c1"), 100, .oneTime, .autoSwap, ("2025-02-26"), .active⟩
    (by simp) rfl).2.1 rfl rfl
  have h2 := (c7_schedule_advance
    [⟨("s2"), ("c1"), 100, .weekly, .autoSwap, ("2025-02-26"), .active⟩] ("s2")
    ⟨("s2"), ("c1"), 100, .weekly, .autoSwap, ("2025-02-26"), .active⟩
    (by simp) rfl).2.2 ⟨2025, 2, 26⟩ rfl rfl (by decide) (by norm_num)
  refine ⟨h1, h2.1, ?_, h2.2.2.1⟩
  rw [h2.2.1]
  decide

/- ---------------- C10: monthly day-of-month overflow ---------------- -/

/-- C10: For a monthly schedule whose day-of-month does not exist in
    the following month, a successful pass advances the next due date
    past the end of the following month into the month after (a UTC
    calendar-month increment followed by JS day normalisation), not to
    the last day of the following month. -/
theorem c10_monthly_rollover (sid : String) (s : Schedule) (dt : Date)
    (hid : s.id = sid) (hcad : s.cadence = .monthly)
    (hparse : parseDate s.nextDate = some dt)
    (hm : dt.m ≤ 10) (hd : daysInMonth dt.y (dt.m + 1) < dt.d) :
    monthlyNext dt = ⟨dt.y, dt.m + 2, dt.d - daysInMonth dt.y (dt.m + 1)⟩ ∧
    (advanceOne sid s).nextDate =
      formatDate ⟨dt.y, dt.m + 2, dt.d - daysInMonth dt.y (dt.m + 1)⟩ ∧
    (advanceOne sid s).status = s.status := by
  have hb := parseDate_bounds s.nextDate dt hparse
  obtain ⟨hm1, hm2, hd1, hd2⟩ := hb
  have hmn : monthlyNext dt = ⟨dt.y, dt.m + 2, dt.d - daysInMonth dt.y (dt.m + 1)⟩ := by
    obtain ⟨y, m, d⟩ := dt
    simp only at hm hd hm1 hm2 hd1 hd2
    unfold monthlyNext
    simp only
    rw [if_neg (by omega)]
    unfold fixDay
    rw [if_neg (by omega), if_pos (by omega)]
    unfold fixDay
    have g1 := daysInMonthL_ge (isLeap y) (m + 1 + 1)
    have g2 := daysInMonthL_le (isLeap y) m
    have g3 := daysInMonthL_ge (isLeap y) (m + 1)
    unfold daysInMonth at *
    rw [if_pos (by omega)]
  refine ⟨hmn, ?_, ?_⟩
  · have : advanceOne sid s = { s with nextDate := formatDate (monthlyNext dt) } := by
      simp [advanceOne, hid, nextDate, hcad, hparse]
    rw [this, hmn]
  · have : advanceOne sid s = { s with nextDate := formatDate (monthlyNext dt) } := by
      simp [advanceOne, hid, nextDate, hcad, hparse]
    rw [this]

/-- Witness for C10: a monthly schedule due 2025-01-31 advances to
    2025-03-03 (January 31 plus one month overflows February), staying
    active, not to 2025-02-28. -/
theorem c10_monthly_rollover_witness :
    (advanceOne ("s1")
      ⟨("s1"), ("c1"), 100, .monthly, .autoSwap, ("2025-01-31"), .active⟩).nextDate =
      ("2025-03-03") ∧
    (advanceOne ("s1")
      ⟨("s1"), ("c1"), 100, .monthly, .autoSwap, ("2025-01-31"), .active⟩).status =
      .active ∧
    ("2025-03-03" : String) ≠ ("2025-02-28") := by
  have h := c10_monthly_rollover ("s1")
    ⟨("s1"), ("c1"), 100, .monthly, .autoSwap, ("2025-01-31"), .active⟩
    ⟨2025, 1, 31⟩ rfl rfl (by decide) (by norm_num) (by decide)
  refine ⟨?_, h.2.2, by decide⟩
  rw [h.2.1]
  decide

/- ---------------- C8: instant cash-out ---------------- -/

/-- C8: For a selected contractor, an instant cash-out whose rounded
    micro-unit amount is positive and within the contractor's simulated
    asset balance debits the asset balance by that amount, credits the
    local balance by the quote output in the contractor's preferred
    currency, appends exactly one cashout activity record and leaves
    other contractors unchanged; a non-positive amount fails with the
    invalid-amount message and an excessive one with the
    insufficient-balance message, in both cases with no state change. -/
theorem c8_cashout_instant (st : AppState) (selId : String) (c : Contractor)
    (cashAmount : ℚ) (bank aid iso : String) (qn : ℚ)
    (hc : st.contractors.find? (fun x => x.id == selId) = some c) :
    (0 < ((toUsdc cashAmount : ℤ) : ℚ) → ((toUsdc cashAmount : ℤ) : ℚ) ≤ c.usdc →
      (runCashOut st selId .instant cashAmount bank aid iso qn).1 = .ok () ∧
      (∃ act : Activity,
        (runCashOut st selId .instant cashAmount bank aid iso qn).2.activity =
          act :: st.activity ∧
        act.kind = .cashout ∧ act.contractorId = some c.id ∧
        act.currency = some c.preferred ∧
        act.output =
          some (quoteFor ((toUsdc cashAmount : ℤ) : ℚ) c.preferred qn).output) ∧
      (∀ x ∈ st.contractors, x.id = c.id →
        { x with usdc := x.usdc - ((toUsdc cashAmount : ℤ) : ℚ),
                 localBal := x.localBal +
                   (quoteFor ((toUsdc cashAmount : ℤ) : ℚ) c.preferred qn).output } ∈
          (runCashOut st selId .instant cashAmount bank aid iso qn).2.contractors) ∧
      (∀ x ∈ st.contractors, x.id ≠ c.id →
        x ∈ (runCashOut st selId .instant cashAmount bank aid iso qn).2.contractors) ∧
      (runCashOut st selId .instant cashAmount bank aid iso qn).2.schedules =
        st.schedules) ∧
    (((toUsdc cashAmount : ℤ) : ℚ) ≤ 0 →
      runCashOut st selId .instant cashAmount bank aid iso qn =
        (.error ("Invalid USDC amount"), st)) ∧
    (0 < ((toUsdc cashAmount : ℤ) : ℚ) → c.usdc < ((toUsdc cashAmount : ℤ) : ℚ) →
      runCashOut st selId .instant cashAmount bank aid iso qn =
        (.error ("Insufficient USDC balance"), st)) := by
  refine ⟨?_, ?_, ?_⟩
  · intro hpos hle
    have hred : runCashOut st selId .instant cashAmount bank aid iso qn =
        (.ok (),
         { st with
           contractors := st.contractors.map fun x =>
             if x.id == c.id then
               { x with usdc := x.usdc - ((toUsdc cashAmount : ℤ) : ℚ),
                        localBal := x.localBal +
                          (quoteFor ((toUsdc cashAmount : ℤ) : ℚ) c.preferred qn).output }
             else x
           activity :=
             { id := aid
               kind := .cashout
               atIso := iso
               contractorId := some c.id
               txId := none
               round := none
               usdc := some ((toUsdc cashAmount : ℤ) : ℚ)
               currency := some (quoteFor ((toUsdc cashAmount : ℤ) : ℚ) c.preferred qn).currency
               output := some (quoteFor ((toUsdc cashAmount : ℤ) : ℚ) c.preferred qn).output
               note := "Instant swap cash-out" } :: st.activity }) := by
      simp only [runCashOut, hc]
      rw [if_neg (by push_neg; exact ⟨by intro h; rw [h] at hpos; exact lt_irrefl 0 hpos,
        hpos⟩), if_neg (not_lt.mpr hle)]
    refine ⟨by rw [hred], ⟨_, by rw [hred], rfl, rfl, ?_, rfl⟩, ?_, ?_, by rw [hred]⟩
    · simp [quoteFor]
    · intro x hx hxid
      rw [hred]
      refine List.mem_map.mpr ⟨x, hx, ?_⟩
      rw [if_pos (by simp [hxid])]
    · intro x hx hxid
      rw [hred]
      refine List.mem_map.mpr ⟨x, hx, ?_⟩
      rw [if_neg (by simp [hxid])]
  · intro hnp
    simp only [runCashOut, hc]
    rw [if_pos (Or.inr hnp)]
  · intro hpos hover
    simp only [runCashOut, hc]
    rw [if_neg (by push_neg; exact ⟨by intro h; rw [h] at hpos; exact lt_irrefl 0 hpos,
      hpos⟩), if_pos hover]

/-- Witness for C8, the spec scenario: asset balance 500 USDCa
    (500000000 micro-units), instant cash-out of 200 at preferred MXN
    (rate 17, spread 0.995) leaves asset balance 300000000 micro-units
    and adds 200 * 17 * 0.995 = 3383 to the local balance, appending
    one cashout record; cashing out 600 fails with no state change. -/
theorem c8_cashout_instant_witness :
    (runCashOut
      ⟨[⟨("c1"), ("n"), ("e"), ("addr"), .MXN, (""), false, true, 500000000, 0⟩], [], []⟩
      ("c1") .instant 200 ("") ("a1") ("t") 0).1 = .ok () ∧
    (⟨("c1"), ("n"), ("e"), ("addr"), .MXN, (""), false, true, 300000000, 3383⟩ : Contractor) ∈
      (runCashOut
        ⟨[⟨("c1"), ("n"), ("e"), ("addr"), .MXN, (""), false, true, 500000000, 0⟩], [], []⟩
        ("c1") .instant 200 ("") ("a1") ("t") 0).2.contractors ∧
    runCashOut
      ⟨[⟨("c1"), ("n"), ("e"), ("addr"), .MXN, (""), false, true, 500000000, 0⟩], [], []⟩
      ("c1") .instant 600 ("") ("a1") ("t") 0 =
      (.error ("Insufficient USDC balance"),
       ⟨[⟨("c1"), ("n"), ("e"), ("addr"), .MXN, (""), false, true, 500000000, 0⟩], [], []⟩) := by
  have h := c8_cashout_instant
    ⟨[⟨("c1"), ("n"), ("e"), ("addr"), .MXN, (""), false, true, 500000000, 0⟩], [], []⟩
    ("c1") ⟨("c1"), ("n"), ("e"), ("addr"), .MXN, (""), false, true, 500000000, 0⟩
    200 ("") ("a1") ("t") 0 rfl
  have h6 := c8_cashout_instant
    ⟨[⟨("c1"), ("n"), ("e"), ("addr"), .MXN, (""), false, true, 500000000, 0⟩], [], []⟩
    ("c1") ⟨("c1"), ("n"), ("e"), ("addr"), .MXN, (""), false, true, 500000000, 0⟩
    600 ("") ("a1") ("t") 0 rfl
  have ht : ((toUsdc 200 : ℤ) : ℚ) = 200000000 := by
    norm_num [toUsdc, SCALE, round_eq]
  have ht6 : ((toUsdc 600 : ℤ) : ℚ) = 600000000 := by
    norm_num [toUsdc, SCALE, round_eq]
  have hp := h.1 (by rw [ht]; norm_num) (by rw [ht]; norm_num)
  refine ⟨hp.1, ?_, ?_⟩
  · have hm := hp.2.2.1
      ⟨("c1"), ("n"), ("e"), ("addr"), .MXN, (""), false, true, 500000000, 0⟩
      (by simp) rfl
    convert hm using 2
    · rw [ht]
      norm_num
    · rw [ht]
      norm_num [quoteFor, SCALE, RATES]
      rw [if_neg (show Currency.MXN ≠ Currency.USDC by decide)]
  · exact h6.2.2 (by rw [ht6]; norm_num) (by rw [ht6]; norm_num)
